import Mathlib

/-!
# Verification of the prime-fix-md-go market-data core

A shallow embedding of the market-data extraction, normalization and
in-memory trade/subscription store of the repository, together with
theorems settling the frozen claims about it.

Conventions of the embedding:
* Go strings are embedded as `List Char` (the code only manipulates them
  byte-wise via `strings.Index` and slicing, which on the ASCII data at
  hand coincides with character-wise operations).
* `time.Now()` is threaded through as an explicit `now : Nat` parameter.
* The FIX field delimiter byte `"\x01"` (SOH) is the character `soh`
  below; the spec's concrete entry spans render it as `|`, following the
  usual FIX display convention.
* The Go map `map[string]*Subscription` is embedded as an association
  list; in-place mutation through the stored pointer becomes in-place
  replacement of the entry (`setSubEntry`), deletion during `range`
  becomes `List.filter`.
* `int`/`int64` counters are embedded as `Int`/`Nat`; none of the claims
  approaches the 2^63 wrap-around of the Go counters, all of which start
  at 0 and grow by list lengths.
-/

namespace PrimeFixMd

/-- The FIX SOH field delimiter, byte 0x01 (`"\x01"` in the Go source). -/
def soh : Char := Char.ofNat 1

/-- Predicate `leadsWith pat s`: true iff `pat` occurs at the very start
of `s` (a byte-string match at offset 0, as Go's `strings.Index` tests
at each candidate offset). -/
def leadsWith : List Char → List Char → Bool
  | [], _ => true
  | _ :: _, [] => false
  | p :: ps, c :: cs => p = c && leadsWith ps cs

/-- Embedding of Go `strings.Index(s, pat)`: the offset of the first
occurrence of `pat` in `s`, `none` standing for Go's `-1`. -/
def firstIdx (pat : List Char) : List Char → Option Nat
  | [] => if leadsWith pat [] then some 0 else none
  | c :: cs =>
    if leadsWith pat (c :: cs) then some 0
    else (firstIdx pat cs).map (· + 1)

/-- The entry-kind discriminator marker `"269="` that
`findEntryBoundaries` scans for. -/
def marker269 : List Char := ['2', '6', '9', '=']

/-- One iteration layer of the `findEntryBoundaries` loop in
`extract.go`: search `s` (the suffix of the raw message starting at
absolute offset `offset`) for the marker; on a hit at relative position
`pos`, record absolute offset `offset + pos` and continue after the
marker.  `fuel` is an upper bound on the number of loop iterations,
instantiated below with more fuel than the loop can consume, so that the
function is structurally recursive. -/
def findAllAux (pat : List Char) : Nat → List Char → Nat → List Nat
  | 0, _, _ => []
  | fuel + 1, s, offset =>
    match firstIdx pat s with
    | none => []
    | some pos =>
        (offset + pos) :: findAllAux pat fuel (s.drop (pos + pat.length)) (offset + pos + pat.length)

/-- Embedding of `FixApp.findEntryBoundaries`: the ascending list of
offsets of the occurrences of `"269="` in the raw message, found by a
left-to-right scan that resumes right after each hit. -/
def findEntryBoundaries (rawMsg : List Char) : List Nat :=
  findAllAux marker269 (rawMsg.length + 1) rawMsg 0

/-- Embedding of `extractSingleFieldValue`: locate `tagPat` inside the
segment and read forward to the next SOH delimiter; a missing delimiter
means the value runs to the end of the segment, a missing tag yields the
empty string. -/
def extractSingleFieldValue (fixSegment tagPat : List Char) : List Char :=
  match firstIdx tagPat fixSegment with
  | none => []
  | some start =>
      let rest := fixSegment.drop (start + tagPat.length)
      match firstIdx [soh] rest with
      | none => rest
      | some e => rest.take e

/-- Embedding of `getAggressorSideDesc` (fixclient display helpers):
`"1"` maps to `"Buy"`, `"2"` to `"Sell"`, and any other discriminator is
returned unchanged. -/
def getAggressorSideDesc (side : List Char) : List Char :=
  if side = ['1'] then ['B', 'u', 'y']
  else if side = ['2'] then ['S', 'e', 'l', 'l']
  else side

/-- Embedding of `mapAggressorSide` as defined in the repository's own
`parser_test.go` (a test-local reimplementation of the aggressor-side
mapping): `"1"` maps to `"Buy"`, `"2"` to `"Sell"`, and anything else to
`"Unknown"`. -/
def mapAggressorSide (side : List Char) : List Char :=
  if side = ['1'] then ['B', 'u', 'y']
  else if side = ['2'] then ['S', 'e', 'l', 'l']
  else ['U', 'n', 'k', 'n', 'o', 'w', 'n']

/-- Embedding of the `Trade` struct of `tradestore.go`.  `Timestamp` is
the `time.Now()` instant threaded as a `Nat`. -/
structure Trade where
  Timestamp : Nat
  Symbol : List Char
  Price : List Char
  Size : List Char
  Time : List Char
  Aggressor : List Char
  MdReqId : List Char
  IsSnapshot : Bool
  IsUpdate : Bool
  EntryType : List Char
  Position : List Char
  SeqNum : List Char
  deriving Repr, DecidableEq

/-- The zero value of `Trade`, as produced by Go's struct literal before
any field assignment. -/
def Trade.zero : Trade :=
  { Timestamp := 0, Symbol := [], Price := [], Size := [], Time := [],
    Aggressor := [], MdReqId := [], IsSnapshot := false, IsUpdate := false,
    EntryType := [], Position := [], SeqNum := [] }

/-- The decimal rendering `fmt.Sprintf("%d", entryIndex+1)` used for the
book-position fallback. -/
def posOfIndex (entryIndex : Nat) : List Char :=
  (toString (entryIndex + 1)).toList

/-- Embedding of `FixApp.parseTradeFromSegment`: build one `Trade` from
one entry's raw field span, the message-level context, and the entry's
ordinal index within the message. -/
def parseTradeFromSegment (segment symbol mdReqId : List Char) (isSnapshot : Bool)
    (seqNum : List Char) (entryIndex : Nat) (now : Nat) : Trade :=
  let t0 : Trade :=
    { Trade.zero with
      Timestamp := now, Symbol := symbol, MdReqId := mdReqId,
      IsSnapshot := isSnapshot, IsUpdate := !isSnapshot, SeqNum := seqNum }
  let entryType := extractSingleFieldValue segment ['2', '6', '9', '=']
  let t1 := if entryType ≠ [] then { t0 with EntryType := entryType } else t0
  let price := extractSingleFieldValue segment ['2', '7', '0', '=']
  let t2 := if price ≠ [] then { t1 with Price := price } else t1
  let size := extractSingleFieldValue segment ['2', '7', '1', '=']
  let t3 := if size ≠ [] then { t2 with Size := size } else t2
  let timeVal := extractSingleFieldValue segment ['2', '7', '3', '=']
  let t4 := if timeVal ≠ [] then { t3 with Time := timeVal } else t3
  let position := extractSingleFieldValue segment ['2', '9', '0', '=']
  let t5 :=
    if position ≠ [] then { t4 with Position := position }
    else if t4.EntryType = ['0'] ∨ t4.EntryType = ['1'] then
      { t4 with Position := posOfIndex entryIndex }
    else t4
  let aggressor := extractSingleFieldValue segment ['2', '4', '4', '6', '=']
  if aggressor ≠ [] then { t5 with Aggressor := getAggressorSideDesc aggressor } else t5

/-- Embedding of `FixApp.getEntryEndPos`: the end offset of the entry at
`currentIndex` is the next boundary, or the message length for the last
entry. -/
def getEntryEndPos (entryStarts : List Nat) (currentIndex msgLen : Nat) : Nat :=
  if currentIndex < entryStarts.length - 1 then entryStarts.getD (currentIndex + 1) msgLen
  else msgLen

/-- The inbound application message as the extractor sees it: the full
serialized text (Go `msg.String()`) and the declared entry-count field
(Go `utils.GetString(msg, TagNoMdEntries)`), read independently. -/
structure InMsg where
  raw : List Char
  noMdEntries : List Char
  deriving Repr, DecidableEq

/-- Embedding of `FixApp.extractTradesImproved`: short-circuit to the
empty list when the declared entry count is absent or `"0"`; otherwise
scan for entry boundaries and normalize the span between consecutive
boundaries (or up to message end) at each ordinal index. -/
def extractTradesImproved (msg : InMsg) (symbol mdReqId : List Char) (isSnapshot : Bool)
    (seqNum : List Char) (now : Nat) : List Trade :=
  if msg.noMdEntries = [] ∨ msg.noMdEntries = ['0'] then []
  else
    let rawMsg := msg.raw
    let entryStarts := findEntryBoundaries rawMsg
    (List.range entryStarts.length).map fun i =>
      let startPos := entryStarts.getD i 0
      let endPos := getEntryEndPos entryStarts i rawMsg.length
      let entrySegment := (rawMsg.drop startPos).take (endPos - startPos)
      parseTradeFromSegment entrySegment symbol mdReqId isSnapshot seqNum i now

/-- Embedding of the `Subscription` struct of `tradestore.go`.
`LastUpdate` is the `time.Now()` instant threaded as a `Nat`. -/
structure Subscription where
  Symbol : List Char
  SubscriptionType : List Char
  MdReqId : List Char
  Active : Bool
  LastUpdate : Nat
  TotalUpdates : Int
  SnapshotReceived : Bool
  deriving Repr, DecidableEq

/-- Embedding of the `TradeStore` struct: the bounded trade buffer, the
request-id-keyed subscription map (as an association list), the running
update counter and the buffer capacity.  The `sync.RWMutex` disappears
in the sequential embedding. -/
structure TradeStore where
  trades : List Trade
  subscriptions : List (List Char × Subscription)
  updateCount : Int
  maxSize : Nat

/-- Go map lookup `subscriptions[reqId]` on the association list. -/
def lookupSub : List (List Char × Subscription) → List Char → Option Subscription
  | [], _ => none
  | (k, v) :: rest, r => if k = r then some v else lookupSub rest r

/-- Go map assignment `subscriptions[reqId] = sub`: replace the entry in
place if the key is present (as mutation through the stored pointer or
reassignment does), append it otherwise. -/
def setSubEntry : List (List Char × Subscription) → List Char → Subscription →
    List (List Char × Subscription)
  | [], k, v => [(k, v)]
  | (k', v') :: rest, k, v =>
      if k' = k then (k, v) :: rest else (k', v') :: setSubEntry rest k v

/-- Embedding of `NewTradeStore` (the `persistenceFile` argument is
accepted and ignored, as in the source). -/
def newTradeStore (maxSize : Nat) (_persistenceFile : List Char) : TradeStore :=
  { trades := [], subscriptions := [], updateCount := 0, maxSize := maxSize }

/-- The per-record stamping done by the `AddTrades` loop body before
insertion: overwrite timestamp, symbol, request id and the
snapshot/update flags with the batch-level context. -/
def stampTrade (symbol mdReqId : List Char) (isSnapshot : Bool) (now : Nat)
    (trade : Trade) : Trade :=
  { trade with
    Timestamp := now, Symbol := symbol, MdReqId := mdReqId,
    IsSnapshot := isSnapshot, IsUpdate := !isSnapshot }

/-- The buffer insertion step of `AddTrades`: evict the single oldest
record when the buffer is full, then append. -/
def insertBounded (maxSize : Nat) (buf : List Trade) (trade : Trade) : List Trade :=
  (if buf.length ≥ maxSize then buf.tail else buf) ++ [trade]

/-- Embedding of `TradeStore.AddTrades`: update the subscription keyed
by `mdReqId` (if registered) with the batch size, timestamp and snapshot
latch, then stamp and insert each record into the bounded buffer. -/
def addTrades (ts : TradeStore) (symbol : List Char) (trades : List Trade)
    (isSnapshot : Bool) (mdReqId : List Char) (now : Nat) : TradeStore :=
  let subs :=
    match lookupSub ts.subscriptions mdReqId with
    | some sub =>
        setSubEntry ts.subscriptions mdReqId
          { sub with
            LastUpdate := now,
            TotalUpdates := sub.TotalUpdates + (trades.length : Int),
            SnapshotReceived := if isSnapshot then true else sub.SnapshotReceived }
    | none => ts.subscriptions
  { ts with
    subscriptions := subs,
    trades := trades.foldl
      (fun buf trade => insertBounded ts.maxSize buf (stampTrade symbol mdReqId isSnapshot now trade))
      ts.trades,
    updateCount := ts.updateCount + (trades.length : Int) }

/-- The newest-to-oldest collection loop of `GetRecentTrades`, run on the
reversed buffer: keep the first `limit` records matching `symbol`. -/
def takeMatching (symbol : List Char) : List Trade → Nat → List Trade
  | [], _ => []
  | _ :: _, 0 => []
  | t :: rest, Nat.succ lim =>
      if t.Symbol = symbol then t :: takeMatching symbol rest lim
      else takeMatching symbol rest (Nat.succ lim)

/-- Embedding of `TradeStore.GetRecentTrades`: scan from newest to
oldest, collect up to `limit` records whose symbol matches, prepending
each hit, which yields the collected records oldest-first. -/
def getRecentTrades (ts : TradeStore) (symbol : List Char) (limit : Nat) : List Trade :=
  (takeMatching symbol ts.trades.reverse limit).reverse

/-- Embedding of `TradeStore.GetAllTrades`: a copy of the buffer in
storage order. -/
def getAllTrades (ts : TradeStore) : List Trade :=
  ts.trades

/-- Embedding of `TradeStore.AddSubscription`: unconditionally install a
fresh active subscription under `mdReqId`. -/
def addSubscription (ts : TradeStore) (symbol subscriptionType mdReqId : List Char)
    (now : Nat) : TradeStore :=
  { ts with
    subscriptions :=
      setSubEntry ts.subscriptions mdReqId
        { Symbol := symbol, SubscriptionType := subscriptionType, MdReqId := mdReqId,
          Active := true, LastUpdate := now, TotalUpdates := 0, SnapshotReceived := false } }

/-- Embedding of `TradeStore.RemoveSubscription`: delete every
subscription whose symbol matches (the `range`-with-`delete` loop over
the Go map). -/
def removeSubscription (ts : TradeStore) (symbol : List Char) : TradeStore :=
  { ts with
    subscriptions := ts.subscriptions.filter fun e => decide (e.2.Symbol ≠ symbol) }

/-- Embedding of `TradeStore.RemoveSubscriptionByReqId`: delete the
subscription under `reqId` if present. -/
def removeSubscriptionByReqId (ts : TradeStore) (reqId : List Char) : TradeStore :=
  { ts with
    subscriptions := ts.subscriptions.filter fun e => decide (e.1 ≠ reqId) }

/-- One batch handed to `AddTrades`: the batch-level context plus the
records extracted from one inbound message, with the `time.Now()`
instant of the call. -/
structure Batch where
  symbol : List Char
  records : List Trade
  isSnapshot : Bool
  mdReqId : List Char
  now : Nat

/-- Run a sequence of `AddTrades` batches against a store. -/
def runBatches (ts : TradeStore) (bs : List Batch) : TradeStore :=
  bs.foldl (fun s b => addTrades s b.symbol b.records b.isSnapshot b.mdReqId b.now) ts

/-- The stamped records a batch contributes to the buffer, in order. -/
def stampedOf (b : Batch) : List Trade :=
  b.records.map (stampTrade b.symbol b.mdReqId b.isSnapshot b.now)

/-- The `n` most recent elements of a list, in original order. -/
def lastN (n : Nat) (l : List α) : List α :=
  (l.reverse.take n).reverse

/-! ## Concrete inputs used by the claim scenarios -/

/-- Turn the pipe-delimited rendering of a FIX span (the spec's and the
FIX community's display convention) into the actual wire characters,
replacing the display `|` with the SOH delimiter byte. -/
def spanOfPipes (s : String) : List Char :=
  s.toList.map fun c => if c = '|' then soh else c

/-- The trade entry span of the C1 scenario. -/
def c1TradeSpan : List Char := spanOfPipes "269=2|270=50000.00|271=1.5|2446=1|"

/-- A trade entry span whose aggressor discriminator `"0"` is not one of
the two recognized values. -/
def c1UnknownSpan : List Char := spanOfPipes "269=2|270=50000.00|271=1.5|2446=0|"

/-- A trade entry span with no aggressor field at all. -/
def c1AbsentSpan : List Char := spanOfPipes "269=2|270=50000.00|271=1.5|"

/-- The C2 scenario: 15 sequential single-record batches tagged
`"BTC-USD"`. -/
def c2Batches : List Batch :=
  List.replicate 15
    { symbol := "BTC-USD".toList, records := [Trade.zero], isSnapshot := false,
      mdReqId := "md_1".toList, now := 0 }

/-- The capacity-10 store after the 15 batches of the C2 scenario. -/
def c2FinalStore : TradeStore := runBatches (newTradeStore 10 []) c2Batches

/-- The 10 most recent stamped records of the C2 scenario. -/
def c2Expected : List Trade :=
  List.replicate 10 (stampTrade "BTC-USD".toList "md_1".toList false 0 Trade.zero)

/-- The C3 scenario after registration: subscription
(instrument ETH-USD, kind snapshot+updates, request id r1). -/
def c3Registered : TradeStore :=
  addSubscription (newTradeStore 100 []) "ETH-USD".toList "1".toList "r1".toList 0

/-- The freshly registered subscription of the C3 scenario. -/
def c3FreshSub : Subscription :=
  { Symbol := "ETH-USD".toList, SubscriptionType := "1".toList, MdReqId := "r1".toList,
    Active := true, LastUpdate := 0, TotalUpdates := 0, SnapshotReceived := false }

/-- The C3 scenario after a 2-record snapshot batch and a 3-record
incremental batch, both tagged r1. -/
def c3Final : TradeStore :=
  addTrades
    (addTrades c3Registered "ETH-USD".toList [Trade.zero, Trade.zero] true "r1".toList 1)
    "ETH-USD".toList [Trade.zero, Trade.zero, Trade.zero] false "r1".toList 2

/-- A message whose declared entry count is 5 but whose serialized text
holds only two entry-kind markers. -/
def c4Msg : InMsg :=
  { raw := spanOfPipes "8=FIX.4.4|35=W|268=5|269=0|270=1|269=1|270=2|",
    noMdEntries := ['5'] }

/-- A message whose declared entry count is `"0"` although its
serialized text does contain an entry-kind marker. -/
def c5Msg : InMsg :=
  { raw := spanOfPipes "8=FIX.4.4|35=W|268=0|269=0|270=1|",
    noMdEntries := ['0'] }

/-- The bid entry span of the C6 scenario (no position field). -/
def c6Span : List Char := spanOfPipes "269=0|270=49999.99|271=2.0|"

/-- The eight entry-kind discriminators the system recognizes
(0 Bid, 1 Offer, 2 Trade, 4 Open, 5 Close, 7 High, 8 Low, B Volume). -/
def recognizedKinds : List (List Char) :=
  [['0'], ['1'], ['2'], ['4'], ['5'], ['7'], ['8'], ['B']]

/-- An entry span whose kind discriminator `"X"` is not recognized. -/
def c8Span : List Char := spanOfPipes "269=X|270=9.9|271=3|"

/-- A one-entry message whose single entry has the unrecognized kind
discriminator `"X"`. -/
def c8Msg : InMsg := { raw := c8Span, noMdEntries := ['1'] }

/-- A store holding one trade for each of two instruments. -/
def c7Store : TradeStore :=
  addTrades (addTrades (newTradeStore 5 []) "BTC-USD".toList [Trade.zero] false "rA".toList 0)
    "ETH-USD".toList [Trade.zero] false "rB".toList 1

/-- A store with one subscription per instrument for two instruments. -/
def c9Store : TradeStore :=
  addSubscription (addSubscription (newTradeStore 5 []) "BTC-USD".toList "1".toList "r1".toList 0)
    "ETH-USD".toList "1".toList "r2".toList 1

/-- The ETH-USD subscription held by `c9Store` under request id r2. -/
def c9EthSub : Subscription :=
  { Symbol := "ETH-USD".toList, SubscriptionType := "1".toList, MdReqId := "r2".toList,
    Active := true, LastUpdate := 1, TotalUpdates := 0, SnapshotReceived := false }

/-- A store in which request id rX is already registered. -/
def c10Store : TradeStore :=
  addSubscription (newTradeStore 100 []) "BTC-USD".toList "1".toList "rX".toList 3

/-- The subscription registered under rX in `c10Store`. -/
def c10Prev : Subscription :=
  { Symbol := "BTC-USD".toList, SubscriptionType := "1".toList, MdReqId := "rX".toList,
    Active := true, LastUpdate := 3, TotalUpdates := 0, SnapshotReceived := false }

/-! ## Lemmas about the boundary scanner -/

theorem leadsWith_length : ∀ {pat s : List Char}, leadsWith pat s = true →
    pat.length ≤ s.length := by
  intro pat
  induction pat with
  | nil => intro s _; simp
  | cons p ps ih =>
    intro s h
    cases s with
    | nil => simp [leadsWith] at h
    | cons c cs =>
      simp only [leadsWith, Bool.and_eq_true] at h
      simpa using ih h.2

theorem firstIdx_bound {pat : List Char} :
    ∀ {s : List Char} {pos : Nat}, firstIdx pat s = some pos →
      pos + pat.length ≤ s.length := by
  intro s
  induction s with
  | nil =>
    intro pos h
    rw [firstIdx] at h
    split at h
    · cases h
      have h2 := leadsWith_length (by assumption : leadsWith pat [] = true)
      simp at h2
      simp [h2]
    · cases h
  | cons c cs ih =>
    intro pos h
    rw [firstIdx] at h
    split at h
    · cases h
      simpa using leadsWith_length (by assumption)
    · cases hm : firstIdx pat cs with
      | none => rw [hm] at h; cases h
      | some q =>
        rw [hm] at h
        simp at h
        have := ih hm
        simp only [List.length_cons]
        omega

theorem firstIdx_leadsWith {pat : List Char} :
    ∀ {s : List Char} {pos : Nat}, firstIdx pat s = some pos →
      leadsWith pat (s.drop pos) = true := by
  intro s
  induction s with
  | nil =>
    intro pos h
    rw [firstIdx] at h
    split at h
    · cases h; simpa using (by assumption : leadsWith pat [] = true)
    · cases h
  | cons c cs ih =>
    intro pos h
    rw [firstIdx] at h
    split at h
    · cases h; simpa using (by assumption : leadsWith pat (c :: cs) = true)
    · cases hm : firstIdx pat cs with
      | none => rw [hm] at h; cases h
      | some q =>
        rw [hm] at h
        simp at h
        subst h
        simpa using ih hm

theorem findAllAux_ge {pat : List Char} :
    ∀ (fuel : Nat) (s : List Char) (offset : Nat) {x : Nat},
      x ∈ findAllAux pat fuel s offset → offset ≤ x := by
  intro fuel
  induction fuel with
  | zero => intro s offset x h; simp [findAllAux] at h
  | succ n ih =>
    intro s offset x h
    rw [findAllAux] at h
    cases hm : firstIdx pat s with
    | none => rw [hm] at h; simp at h
    | some pos =>
      rw [hm] at h
      simp only [List.mem_cons] at h
      rcases h with h | h
      · omega
      · have := ih _ _ h
        omega

theorem findAllAux_chain {pat : List Char} (hpat : pat ≠ []) :
    ∀ (fuel : Nat) (s : List Char) (offset : Nat),
      List.Chain' (· < ·) (findAllAux pat fuel s offset) := by
  intro fuel
  induction fuel with
  | zero => intro s offset; simp [findAllAux]
  | succ n ih =>
    intro s offset
    rw [findAllAux]
    cases hm : firstIdx pat s with
    | none => simp
    | some pos =>
      rw [List.chain'_cons']
      refine ⟨?_, ih _ _⟩
      intro y hy
      have hmem := List.mem_of_mem_head? hy
      have hge := findAllAux_ge n _ _ hmem
      have hlen : 1 ≤ pat.length := by
        cases pat with
        | nil => exact absurd rfl hpat
        | cons _ _ => simp
      omega

theorem findAllAux_occurs {pat : List Char} (raw : List Char) :
    ∀ (fuel : Nat) (s : List Char) (offset : Nat), s = raw.drop offset →
      ∀ {b : Nat}, b ∈ findAllAux pat fuel s offset → leadsWith pat (raw.drop b) = true := by
  intro fuel
  induction fuel with
  | zero => intro s offset _ b h; simp [findAllAux] at h
  | succ n ih =>
    intro s offset hs b h
    rw [findAllAux] at h
    cases hm : firstIdx pat s with
    | none => rw [hm] at h; simp at h
    | some pos =>
      rw [hm] at h
      simp only [List.mem_cons] at h
      rcases h with h | h
      · subst h
        have := firstIdx_leadsWith hm
        rwa [hs, List.drop_drop] at this
      · refine ih (s.drop (pos + pat.length)) (offset + pos + pat.length) ?_ h
        rw [hs, List.drop_drop, Nat.add_assoc]

theorem findAllAux_fuel_indep {pat : List Char} (hpat : pat ≠ []) :
    ∀ (fuel₁ : Nat) (s : List Char) (fuel₂ offset : Nat),
      s.length < fuel₁ → s.length < fuel₂ →
      findAllAux pat fuel₁ s offset = findAllAux pat fuel₂ s offset := by
  intro fuel₁
  induction fuel₁ with
  | zero => intro s fuel₂ offset h1 _; omega
  | succ n ih =>
    intro s fuel₂ offset h1 h2
    cases fuel₂ with
    | zero => omega
    | succ m =>
      rw [findAllAux, findAllAux]
      cases hm : firstIdx pat s with
      | none => rfl
      | some pos =>
        have hbound := firstIdx_bound hm
        have hlen : 1 ≤ pat.length := by
          cases pat with
          | nil => exact absurd rfl hpat
          | cons _ _ => simp
        have hdrop : (s.drop (pos + pat.length)).length < n := by
          simp only [List.length_drop]
          omega
        have hdrop2 : (s.drop (pos + pat.length)).length < m := by
          simp only [List.length_drop]
          omega
        show (offset + pos) :: findAllAux pat n (s.drop (pos + pat.length)) (offset + pos + pat.length)
            = (offset + pos) :: findAllAux pat m (s.drop (pos + pat.length)) (offset + pos + pat.length)
        rw [ih _ _ _ hdrop hdrop2]

theorem findEntryBoundaries_chain (rawMsg : List Char) :
    List.Chain' (· < ·) (findEntryBoundaries rawMsg) :=
  findAllAux_chain (by simp [marker269]) _ _ _

theorem findEntryBoundaries_occurs (rawMsg : List Char) {b : Nat}
    (h : b ∈ findEntryBoundaries rawMsg) : leadsWith marker269 (rawMsg.drop b) = true :=
  findAllAux_occurs rawMsg _ rawMsg 0 (by simp) h

/-! ## Lemmas about the bounded buffer -/

theorem lastN_length (n : Nat) (l : List α) : (lastN n l).length = min n l.length := by
  simp [lastN]

theorem lastN_of_le {n : Nat} {l : List α} (h : l.length ≤ n) : lastN n l = l := by
  rw [lastN, List.take_of_length_le (by simpa using h), List.reverse_reverse]

theorem take_app_take (m : Nat) (a b : List α) : (a ++ b.take m).take m = (a ++ b).take m := by
  rw [List.take_append_eq_append_take, List.take_append_eq_append_take, List.take_take]
  rw [Nat.min_eq_left (Nat.sub_le m a.length)]

theorem lastN_append_lastN (m : Nat) (xs ys : List α) :
    lastN m (lastN m xs ++ ys) = lastN m (xs ++ ys) := by
  simp only [lastN, List.reverse_append, List.reverse_reverse]
  rw [take_app_take]

theorem lastN_sublist (n : Nat) (l : List α) : (lastN n l).Sublist l := by
  have h := (List.take_sublist n l.reverse).reverse
  rwa [List.reverse_reverse] at h

theorem insertBounded_lastN {m : Nat} (hm : 0 < m) {buf : List Trade}
    (hlen : buf.length ≤ m) (t : Trade) :
    insertBounded m buf t = lastN m (buf ++ [t]) := by
  unfold insertBounded
  by_cases h : buf.length ≥ m
  · have heq : buf.length = m := Nat.le_antisymm hlen h
    rw [if_pos h]
    cases buf with
    | nil => simp at heq; omega
    | cons b bs =>
      have hX : ((bs ++ [t]).reverse).length = m := by
        simp at heq ⊢
        omega
      rw [List.cons_append, lastN, List.reverse_cons, List.take_append_eq_append_take,
        List.take_of_length_le (le_of_eq hX), hX, Nat.sub_self, List.take_zero,
        List.append_nil, List.reverse_reverse]
      rfl
  · rw [if_neg h]
    have hle : (buf ++ [t]).length ≤ m := by
      simp only [List.length_append, List.length_cons, List.length_nil]
      omega
    rw [lastN_of_le hle]

theorem foldl_insertBounded {m : Nat} (hm : 0 < m) :
    ∀ (ts : List Trade) (buf : List Trade), buf.length ≤ m →
      ts.foldl (insertBounded m) buf = lastN m (buf ++ ts) := by
  intro ts
  induction ts with
  | nil =>
    intro buf h
    rw [List.foldl_nil, List.append_nil, lastN_of_le h]
  | cons t ts ih =>
    intro buf h
    rw [List.foldl_cons, insertBounded_lastN hm h]
    have hlen2 : (lastN m (buf ++ [t])).length ≤ m := by
      rw [lastN_length]
      omega
    rw [ih _ hlen2, lastN_append_lastN, List.append_assoc]
    rfl

theorem addTrades_trades {ts : TradeStore} (hm : 0 < ts.maxSize)
    (hlen : ts.trades.length ≤ ts.maxSize) (symbol : List Char) (trades : List Trade)
    (isSnapshot : Bool) (mdReqId : List Char) (now : Nat) :
    (addTrades ts symbol trades isSnapshot mdReqId now).trades
      = lastN ts.maxSize
          (ts.trades ++ trades.map (stampTrade symbol mdReqId isSnapshot now)) := by
  show trades.foldl
      (fun buf trade =>
        insertBounded ts.maxSize buf (stampTrade symbol mdReqId isSnapshot now trade))
      ts.trades = _
  rw [← List.foldl_map (stampTrade symbol mdReqId isSnapshot now) (insertBounded ts.maxSize)]
  exact foldl_insertBounded hm _ _ hlen

theorem addTrades_maxSize (ts : TradeStore) (symbol : List Char) (trades : List Trade)
    (isSnapshot : Bool) (mdReqId : List Char) (now : Nat) :
    (addTrades ts symbol trades isSnapshot mdReqId now).maxSize = ts.maxSize :=
  rfl

theorem runBatches_trades {C : Nat} (hC : 0 < C) :
    ∀ (bs : List Batch) (ts : TradeStore), ts.maxSize = C → ts.trades.length ≤ C →
      (runBatches ts bs).trades = lastN C (ts.trades ++ (bs.map stampedOf).flatten) := by
  intro bs
  induction bs with
  | nil =>
    intro ts h1 h2
    show ts.trades = _
    rw [List.map_nil, List.flatten_nil, List.append_nil, lastN_of_le h2]
  | cons b bs ih =>
    intro ts h1 h2
    show (runBatches (addTrades ts b.symbol b.records b.isSnapshot b.mdReqId b.now) bs).trades = _
    have hadd : (addTrades ts b.symbol b.records b.isSnapshot b.mdReqId b.now).trades
        = lastN C (ts.trades ++ stampedOf b) := by
      have h2' : ts.trades.length ≤ ts.maxSize := by rw [h1]; exact h2
      rw [addTrades_trades (by rw [h1]; omega) h2', h1]
      rfl
    rw [ih _ (by rw [addTrades_maxSize, h1]) (by rw [hadd, lastN_length]; omega), hadd,
      lastN_append_lastN, List.map_cons, List.flatten_cons, ← List.append_assoc]

/-! ## Lemmas about the subscription map -/

theorem lookupSub_setSubEntry_self :
    ∀ (m : List (List Char × Subscription)) (k : List Char) (v : Subscription),
      lookupSub (setSubEntry m k v) k = some v := by
  intro m k v
  induction m with
  | nil => simp [setSubEntry, lookupSub]
  | cons e rest ih =>
    rw [setSubEntry]
    by_cases h : e.1 = k
    · rw [if_pos h, lookupSub, if_pos rfl]
    · rw [if_neg h, lookupSub, if_neg h]
      exact ih

theorem lookupSub_setSubEntry_other {k k' : List Char} (hne : k' ≠ k) :
    ∀ (m : List (List Char × Subscription)) (v : Subscription),
      lookupSub (setSubEntry m k v) k' = lookupSub m k' := by
  intro m v
  induction m with
  | nil =>
    simp [setSubEntry, lookupSub, Ne.symm hne]
  | cons e rest ih =>
    rw [setSubEntry]
    by_cases h : e.1 = k
    · rw [if_pos h, lookupSub, lookupSub, if_neg (fun hk => hne hk.symm),
        if_neg (fun hk => hne (h.symm.trans hk).symm)]
    · rw [if_neg h, lookupSub, lookupSub]
      by_cases h2 : e.1 = k'
      · rw [if_pos h2, if_pos h2]
      · rw [if_neg h2, if_neg h2]
        exact ih

theorem lookupSub_filter_keep {sym : List Char} :
    ∀ {m : List (List Char × Subscription)} {k : List Char} {sub : Subscription},
      lookupSub m k = some sub → sub.Symbol ≠ sym →
      lookupSub (m.filter fun e => decide (e.2.Symbol ≠ sym)) k = some sub := by
  intro m
  induction m with
  | nil => intro k sub h _; cases h
  | cons e rest ih =>
    intro k sub h hsym
    rw [lookupSub] at h
    rw [List.filter_cons]
    by_cases hk : e.1 = k
    · rw [if_pos hk] at h
      cases h
      rw [if_pos (by simpa using hsym), lookupSub, if_pos hk]
    · rw [if_neg hk] at h
      by_cases hkeep : e.2.Symbol ≠ sym
      · rw [if_pos (by simpa using hkeep), lookupSub, if_neg hk]
        exact ih h hsym
      · rw [if_neg (by simpa using hkeep)]
        exact ih h hsym

/-! ## Lemmas about recent-trade retrieval -/

theorem takeMatching_eq (sym : List Char) :
    ∀ (l : List Trade) (lim : Nat),
      takeMatching sym l lim = (l.filter fun t => decide (t.Symbol = sym)).take lim := by
  intro l
  induction l with
  | nil => intro lim; rw [takeMatching, List.filter_nil, List.take_nil]
  | cons t rest ih =>
    intro lim
    cases lim with
    | zero => rw [takeMatching, List.take_zero]
    | succ n =>
      rw [takeMatching, List.filter_cons]
      by_cases h : t.Symbol = sym
      · rw [if_pos h, if_pos (by simpa using h), List.take_succ_cons, ih]
      · rw [if_neg h, if_neg (by simpa using h), ih]

theorem getRecentTrades_eq (ts : TradeStore) (sym : List Char) (limit : Nat) :
    getRecentTrades ts sym limit
      = lastN limit (ts.trades.filter fun t => decide (t.Symbol = sym)) := by
  rw [getRecentTrades, takeMatching_eq, List.filter_reverse, lastN]

/-! ## A closed form for the entry normalizer -/

theorem parseTradeFromSegment_eq (segment symbol mdReqId : List Char) (isSnapshot : Bool)
    (seqNum : List Char) (entryIndex : Nat) (now : Nat) :
    parseTradeFromSegment segment symbol mdReqId isSnapshot seqNum entryIndex now =
      { Timestamp := now, Symbol := symbol, MdReqId := mdReqId,
        IsSnapshot := isSnapshot, IsUpdate := !isSnapshot, SeqNum := seqNum,
        EntryType := extractSingleFieldValue segment ['2', '6', '9', '='],
        Price := extractSingleFieldValue segment ['2', '7', '0', '='],
        Size := extractSingleFieldValue segment ['2', '7', '1', '='],
        Time := extractSingleFieldValue segment ['2', '7', '3', '='],
        Position :=
          if extractSingleFieldValue segment ['2', '9', '0', '='] ≠ [] then
            extractSingleFieldValue segment ['2', '9', '0', '=']
          else if extractSingleFieldValue segment ['2', '6', '9', '='] = ['0']
              ∨ extractSingleFieldValue segment ['2', '6', '9', '='] = ['1'] then
            posOfIndex entryIndex
          else [],
        Aggressor :=
          if extractSingleFieldValue segment ['2', '4', '4', '6', '='] ≠ [] then
            getAggressorSideDesc (extractSingleFieldValue segment ['2', '4', '4', '6', '='])
          else [] } := by
  rw [parseTradeFromSegment]
  by_cases h1 : extractSingleFieldValue segment ['2', '6', '9', '='] = [] <;>
    by_cases h5 : extractSingleFieldValue segment ['2', '9', '0', '='] = [] <;>
    by_cases h6 : extractSingleFieldValue segment ['2', '4', '4', '6', '='] = [] <;>
    by_cases h2 : extractSingleFieldValue segment ['2', '7', '0', '='] = [] <;>
    by_cases h3 : extractSingleFieldValue segment ['2', '7', '1', '='] = [] <;>
    by_cases h4 : extractSingleFieldValue segment ['2', '7', '3', '='] = [] <;>
    simp [Trade.zero, h1, h2, h3, h4, h5, h6, apply_ite] <;>
    (split <;> simp_all)

/-! ## Unfolding lemmas for the extractor and the store -/

theorem extractTradesImproved_eq_of_nonzero {msg : InMsg} (h1 : msg.noMdEntries ≠ [])
    (h2 : msg.noMdEntries ≠ ['0']) (sym r : List Char) (snap : Bool) (seq : List Char)
    (now : Nat) :
    extractTradesImproved msg sym r snap seq now
      = (List.range (findEntryBoundaries msg.raw).length).map (fun i =>
          parseTradeFromSegment
            ((msg.raw.drop ((findEntryBoundaries msg.raw).getD i 0)).take
              (getEntryEndPos (findEntryBoundaries msg.raw) i msg.raw.length
                - (findEntryBoundaries msg.raw).getD i 0))
            sym r snap seq i now) := by
  rw [extractTradesImproved, if_neg (by tauto)]

theorem addTrades_subscriptions_some {ts : TradeStore} {r : List Char} {sub : Subscription}
    (h : lookupSub ts.subscriptions r = some sub) (sym : List Char) (tr : List Trade)
    (snap : Bool) (now : Nat) :
    (addTrades ts sym tr snap r now).subscriptions
      = setSubEntry ts.subscriptions r
          { sub with
            LastUpdate := now,
            TotalUpdates := sub.TotalUpdates + (tr.length : Int),
            SnapshotReceived := if snap then true else sub.SnapshotReceived } := by
  show (match lookupSub ts.subscriptions r with
    | some sub =>
        setSubEntry ts.subscriptions r
          { sub with
            LastUpdate := now,
            TotalUpdates := sub.TotalUpdates + (tr.length : Int),
            SnapshotReceived := if snap then true else sub.SnapshotReceived }
    | none => ts.subscriptions) = _
  rw [h]

theorem addTrades_subscriptions_none {ts : TradeStore} {r : List Char}
    (h : lookupSub ts.subscriptions r = none) (sym : List Char) (tr : List Trade)
    (snap : Bool) (now : Nat) :
    (addTrades ts sym tr snap r now).subscriptions = ts.subscriptions := by
  show (match lookupSub ts.subscriptions r with
    | some sub =>
        setSubEntry ts.subscriptions r
          { sub with
            LastUpdate := now,
            TotalUpdates := sub.TotalUpdates + (tr.length : Int),
            SnapshotReceived := if snap then true else sub.SnapshotReceived }
    | none => ts.subscriptions) = ts.subscriptions
  rw [h]

/-! ## Claim theorems -/

/-- C1: the claim says aggressor-side normalization maps `"1"` to Buy,
`"2"` to Sell and anything else (including an absent field) to Unknown.
The code agrees on `"1"` and `"2"` (and on the concrete Trade scenario,
whose span yields kind `"2"` and side Buy), but `getAggressorSideDesc`
returns any other discriminator verbatim (here `"0"` stays `"0"`), and
an absent aggressor field leaves the side empty — while the repository's
own `TestAggressorSideMapping` (via its helper `mapAggressorSide`)
expects `"Unknown"` for `"0"`, `""` and `"invalid"`.  This theorem
evaluates the code at the failing inputs and exhibits the divergence
from the test's mapping. -/
theorem c1_aggressor_side_code_bug :
    getAggressorSideDesc ['1'] = "Buy".toList
    ∧ getAggressorSideDesc ['2'] = "Sell".toList
    ∧ getAggressorSideDesc ['0'] = ['0']
    ∧ mapAggressorSide ['0'] = "Unknown".toList
    ∧ getAggressorSideDesc ['0'] ≠ mapAggressorSide ['0']
    ∧ (parseTradeFromSegment c1UnknownSpan "BTC-USD".toList "r1".toList false ['1'] 0 0).Aggressor
        = ['0']
    ∧ (parseTradeFromSegment c1AbsentSpan "BTC-USD".toList "r1".toList false ['1'] 0 0).Aggressor
        = []
    ∧ (parseTradeFromSegment c1TradeSpan "BTC-USD".toList "r1".toList false ['1'] 0 0).EntryType
        = ['2']
    ∧ (parseTradeFromSegment c1TradeSpan "BTC-USD".toList "r1".toList false ['1'] 0 0).Aggressor
        = "Buy".toList := by
  decide

/-- C4: when the declared entry-count field is present and not `"0"`,
extraction yields exactly one record per marker occurrence located by
the boundary scan, the boundary offsets are strictly ascending (wire
order), every boundary is a genuine occurrence of the `"269="` marker,
the record at ordinal `i` is the normalization of the span from boundary
`i` to the next boundary (or message end) with ordinal index `i`, and
the result does not depend on the declared count's value at all, so the
record count can fall short of the declared count with no error. -/
theorem c4_one_record_per_marker (msg : InMsg) (sym r : List Char) (snap : Bool)
    (seq : List Char) (now : Nat) (h1 : msg.noMdEntries ≠ []) (h2 : msg.noMdEntries ≠ ['0']) :
    (extractTradesImproved msg sym r snap seq now).length
        = (findEntryBoundaries msg.raw).length
    ∧ List.Chain' (· < ·) (findEntryBoundaries msg.raw)
    ∧ (∀ b ∈ findEntryBoundaries msg.raw, leadsWith marker269 (msg.raw.drop b) = true)
    ∧ (∀ i : Nat, i < (findEntryBoundaries msg.raw).length →
        (extractTradesImproved msg sym r snap seq now)[i]?
          = some (parseTradeFromSegment
              ((msg.raw.drop ((findEntryBoundaries msg.raw).getD i 0)).take
                (getEntryEndPos (findEntryBoundaries msg.raw) i msg.raw.length
                  - (findEntryBoundaries msg.raw).getD i 0))
              sym r snap seq i now))
    ∧ (∀ d : List Char, d ≠ [] → d ≠ ['0'] →
        extractTradesImproved ⟨msg.raw, d⟩ sym r snap seq now
          = extractTradesImproved msg sym r snap seq now) := by
  have hE := extractTradesImproved_eq_of_nonzero h1 h2 sym r snap seq now
  refine ⟨?_, findEntryBoundaries_chain _, fun b hb => findEntryBoundaries_occurs _ hb,
    ?_, ?_⟩
  · rw [hE, List.length_map, List.length_range]
  · intro i hi
    rw [hE, List.getElem?_map, List.getElem?_range hi]
    rfl
  · intro d hd1 hd2
    rw [extractTradesImproved_eq_of_nonzero hd1 hd2, hE]

/-- Witness for C4 at a concrete message: the declared count is `"5"`
(present, nonzero), yet the scan locates only two markers and extraction
returns exactly two records — fewer than declared, with no error. -/
theorem c4_one_record_per_marker_witness :
    c4Msg.noMdEntries ≠ [] ∧ c4Msg.noMdEntries ≠ ['0']
    ∧ (extractTradesImproved c4Msg "BTC-USD".toList "r1".toList true ['1'] 0).length
        = (findEntryBoundaries c4Msg.raw).length
    ∧ (extractTradesImproved c4Msg "BTC-USD".toList "r1".toList true ['1'] 0).length = 2
    ∧ c4Msg.noMdEntries = ['5'] :=
  ⟨by decide, by decide,
    (c4_one_record_per_marker c4Msg "BTC-USD".toList "r1".toList true ['1'] 0
      (by decide) (by decide)).1,
    by decide, by decide⟩

/-- C5: when the declared entry-count field is absent or `"0"`,
extraction returns the empty record sequence immediately, whatever the
serialized text contains. -/
theorem c5_zero_count_short_circuit (msg : InMsg) (sym r : List Char) (snap : Bool)
    (seq : List Char) (now : Nat) (h : msg.noMdEntries = [] ∨ msg.noMdEntries = ['0']) :
    extractTradesImproved msg sym r snap seq now = [] := by
  rw [extractTradesImproved, if_pos h]

/-- Witness for C5 at a concrete message whose serialized text does
contain an entry-kind marker (the scan would find a boundary), yet the
declared `"0"` short-circuits extraction to the empty sequence. -/
theorem c5_zero_count_short_circuit_witness :
    (c5Msg.noMdEntries = [] ∨ c5Msg.noMdEntries = ['0'])
    ∧ extractTradesImproved c5Msg "BTC-USD".toList "r1".toList true ['1'] 0 = []
    ∧ findEntryBoundaries c5Msg.raw ≠ [] :=
  ⟨Or.inr (by decide),
    c5_zero_count_short_circuit c5Msg "BTC-USD".toList "r1".toList true ['1'] 0
      (Or.inr (by decide)),
    by decide⟩

/-- C2: appending records in any sequence of batches to a store of
capacity `C` (starting empty) leaves the buffer holding exactly the `C`
most-recently-appended stamped records in append order, the oldest
evicted first, regardless of instrument; when more than `C` records have
been appended in total, the buffer length is exactly `C`.  The closing
conjuncts are the concrete scenario: 15 single-record `"BTC-USD"`
batches against a capacity-10 store leave `allRecords()` equal to the 10
most recent records in append order, and `recentFor("BTC-USD", 100)`
returns exactly those 10. -/
theorem c2_bounded_history_fifo (C : Nat) (bs : List Batch) (hC : 0 < C) :
    (runBatches (newTradeStore C []) bs).trades = lastN C ((bs.map stampedOf).flatten)
    ∧ (C < ((bs.map stampedOf).flatten).length →
        ((runBatches (newTradeStore C []) bs).trades).length = C)
    ∧ getAllTrades c2FinalStore = c2Expected
    ∧ getRecentTrades c2FinalStore "BTC-USD".toList 100 = c2Expected := by
  have h1 : (runBatches (newTradeStore C []) bs).trades
      = lastN C ((bs.map stampedOf).flatten) := by
    have h := runBatches_trades hC bs (newTradeStore C []) rfl (by simp [newTradeStore])
    simpa [newTradeStore] using h
  refine ⟨h1, ?_, by decide, by decide⟩
  intro hlt
  rw [h1, lastN_length]
  omega

/-- Witness for C2: the general FIFO characterization applied to the
concrete capacity-10, 15-batch scenario. -/
theorem c2_bounded_history_fifo_witness :
    0 < 10
    ∧ (runBatches (newTradeStore 10 []) c2Batches).trades
        = lastN 10 ((c2Batches.map stampedOf).flatten) :=
  ⟨Nat.succ_pos 9, (c2_bounded_history_fifo 10 c2Batches (Nat.succ_pos 9)).1⟩

/-- C3: for every batch, whatever its snapshot flag: recording it for a
registered request id `r` increments the subscription's `totalUpdates`
by exactly the batch's record count, moves `lastUpdateAt` to the call
instant, and latches `snapshotReceived` — set to true for a snapshot
batch, left at its previous value (never reset) for an incremental one;
recording a batch, with either flag, for an unregistered request id
leaves the whole registry unchanged.  The closing conjunct is the
concrete scenario: register (ETH-USD, snapshot+updates, r1), ingest a
2-record snapshot batch then a 3-record incremental batch, both tagged
r1: the subscription shows `totalUpdates = 5` and
`snapshotReceived = true`. -/
theorem c3_subscription_activity (ts : TradeStore) (sym r : List Char)
    (tr : List Trade) (snap : Bool) (now : Nat) :
    (∀ sub, lookupSub ts.subscriptions r = some sub →
      lookupSub ((addTrades ts sym tr snap r now).subscriptions) r
        = some { sub with
            LastUpdate := now,
            TotalUpdates := sub.TotalUpdates + (tr.length : Int),
            SnapshotReceived := if snap then true else sub.SnapshotReceived })
    ∧ (lookupSub ts.subscriptions r = none →
        (addTrades ts sym tr snap r now).subscriptions = ts.subscriptions)
    ∧ lookupSub c3Final.subscriptions "r1".toList
        = some { Symbol := "ETH-USD".toList, SubscriptionType := "1".toList,
                 MdReqId := "r1".toList, Active := true, LastUpdate := 2,
                 TotalUpdates := 5, SnapshotReceived := true } := by
  refine ⟨?_, ?_, by decide⟩
  · intro sub h
    rw [addTrades_subscriptions_some h, lookupSub_setSubEntry_self]
  · intro h
    exact addTrades_subscriptions_none h sym tr snap now

/-- Witness for C3: the per-batch update applied to the concrete ETH-USD
registration with an incremental (non-snapshot) 3-record batch while the
snapshot latch is still false — the counter grows by exactly 3 and the
latch keeps its previous value. -/
theorem c3_subscription_activity_witness :
    lookupSub c3Registered.subscriptions "r1".toList = some c3FreshSub
    ∧ lookupSub
        ((addTrades c3Registered "ETH-USD".toList
          [Trade.zero, Trade.zero, Trade.zero] false "r1".toList 1).subscriptions)
        "r1".toList
      = some { c3FreshSub with
          LastUpdate := 1,
          TotalUpdates := c3FreshSub.TotalUpdates + (3 : Int),
          SnapshotReceived := if false then true else c3FreshSub.SnapshotReceived } :=
  ⟨by decide,
    (c3_subscription_activity c3Registered "ETH-USD".toList "r1".toList
      [Trade.zero, Trade.zero, Trade.zero] false 1).1 c3FreshSub (by decide)⟩

/-- C6: when an entry span has no explicit position field, the
normalized record's book position is the decimal rendering of
`ordinal index + 1` exactly when the kind discriminator is Bid (`"0"`)
or Offer (`"1"`); for any other kind it stays empty, and when a position
field is present it is taken verbatim (no defaulting).  The closing
conjuncts are the concrete scenario: span
`"269=0|270=49999.99|271=2.0|"` at ordinal index 0 yields kind `"0"`
(Bid), price `"49999.99"`, quantity `"2.0"`, book position `"1"`. -/
theorem c6_book_position_defaulting (segment sym r : List Char) (snap : Bool)
    (seq : List Char) (i now : Nat) :
    (extractSingleFieldValue segment ['2', '9', '0', '='] = [] →
      ((extractSingleFieldValue segment ['2', '6', '9', '='] = ['0']
          ∨ extractSingleFieldValue segment ['2', '6', '9', '='] = ['1']) →
        (parseTradeFromSegment segment sym r snap seq i now).Position = posOfIndex i)
      ∧ (extractSingleFieldValue segment ['2', '6', '9', '='] ≠ ['0'] →
          extractSingleFieldValue segment ['2', '6', '9', '='] ≠ ['1'] →
          (parseTradeFromSegment segment sym r snap seq i now).Position = []))
    ∧ (extractSingleFieldValue segment ['2', '9', '0', '='] ≠ [] →
        (parseTradeFromSegment segment sym r snap seq i now).Position
          = extractSingleFieldValue segment ['2', '9', '0', '='])
    ∧ posOfIndex i = (toString (i + 1)).toList
    ∧ (parseTradeFromSegment c6Span "BTC-USD".toList "r1".toList true ['1'] 0 0).EntryType
        = ['0']
    ∧ (parseTradeFromSegment c6Span "BTC-USD".toList "r1".toList true ['1'] 0 0).Price
        = "49999.99".toList
    ∧ (parseTradeFromSegment c6Span "BTC-USD".toList "r1".toList true ['1'] 0 0).Size
        = "2.0".toList
    ∧ (parseTradeFromSegment c6Span "BTC-USD".toList "r1".toList true ['1'] 0 0).Position
        = ['1'] := by
  refine ⟨?_, ?_, rfl, by decide, by decide, by decide, by decide⟩
  · intro h290
    constructor
    · intro h01
      rw [parseTradeFromSegment_eq]
      simp [h290, h01]
    · intro hn0 hn1
      rw [parseTradeFromSegment_eq]
      simp [h290, hn0, hn1]
  · intro h290
    rw [parseTradeFromSegment_eq]
    simp [h290]

/-- Witness for C6: the defaulting branch applied to the concrete
scenario span at ordinal index 0. -/
theorem c6_book_position_defaulting_witness :
    extractSingleFieldValue c6Span ['2', '9', '0', '='] = []
    ∧ (extractSingleFieldValue c6Span ['2', '6', '9', '='] = ['0']
        ∨ extractSingleFieldValue c6Span ['2', '6', '9', '='] = ['1'])
    ∧ (parseTradeFromSegment c6Span "BTC-USD".toList "r1".toList true ['1'] 0 0).Position
        = posOfIndex 0 :=
  ⟨by decide, Or.inl (by decide),
    ((c6_book_position_defaulting c6Span "BTC-USD".toList "r1".toList true ['1'] 0 0).1
      (by decide)).1 (Or.inl (by decide))⟩

/-- C7: `recentFor(instrument, limit)` is the `limit`-record suffix of
the buffer's records matching the instrument, kept in chronological
buffer order: it never returns more than `limit` records (its length is
the minimum of `limit` and the matching-record count, so it falls short
exactly when insufficient matching history exists), every returned
record matches the instrument, and the result is a sublist of the buffer
(oldest-to-newest order).  Being a total function, it never errors. -/
theorem c7_recent_trades_bounded (ts : TradeStore) (sym : List Char) (limit : Nat) :
    getRecentTrades ts sym limit
        = lastN limit (ts.trades.filter fun t => decide (t.Symbol = sym))
    ∧ (getRecentTrades ts sym limit).length
        = min limit (ts.trades.filter fun t => decide (t.Symbol = sym)).length
    ∧ (∀ t ∈ getRecentTrades ts sym limit, t.Symbol = sym)
    ∧ (getRecentTrades ts sym limit).Sublist ts.trades := by
  have hE := getRecentTrades_eq ts sym limit
  refine ⟨hE, ?_, ?_, ?_⟩
  · rw [hE, lastN_length]
  · intro t ht
    rw [hE] at ht
    have hmem := (lastN_sublist _ _).subset ht
    simpa using (List.mem_filter.mp hmem).2
  · rw [hE]
    exact (lastN_sublist _ _).trans (List.filter_sublist _)

/-- Witness for C7: the characterization applied to a concrete store
holding one BTC-USD and one ETH-USD record, with limit 1. -/
theorem c7_recent_trades_bounded_witness :
    getRecentTrades c7Store "BTC-USD".toList 1
        = lastN 1 (c7Store.trades.filter fun t => decide (t.Symbol = "BTC-USD".toList))
    ∧ getRecentTrades c7Store "BTC-USD".toList 1
        = [stampTrade "BTC-USD".toList "rA".toList false 0 Trade.zero] :=
  ⟨(c7_recent_trades_bounded c7Store "BTC-USD".toList 1).1, by decide⟩

/-- C8: the normalizer copies the kind discriminator of the span into
the record verbatim, with no validation against the eight recognized
values, and extraction emits exactly one record per boundary located by
the scan, so no entry is ever dropped.  The closing conjuncts evaluate
an entry whose discriminator `"X"` is not among the eight recognized
values: it still yields a record carrying `"X"` as its kind. -/
theorem c8_unrecognized_kind_pass_through :
    (∀ (segment sym r : List Char) (snap : Bool) (seq : List Char) (i now : Nat),
      (parseTradeFromSegment segment sym r snap seq i now).EntryType
        = extractSingleFieldValue segment ['2', '6', '9', '='])
    ∧ (∀ (msg : InMsg) (sym r : List Char) (snap : Bool) (seq : List Char) (now : Nat),
        msg.noMdEntries ≠ [] → msg.noMdEntries ≠ ['0'] →
        (extractTradesImproved msg sym r snap seq now).length
          = (findEntryBoundaries msg.raw).length)
    ∧ ¬ ['X'] ∈ recognizedKinds
    ∧ (parseTradeFromSegment c8Span "BTC-USD".toList "r1".toList true ['1'] 0 0).EntryType
        = ['X']
    ∧ (extractTradesImproved c8Msg "BTC-USD".toList "r1".toList true ['1'] 0).length = 1 := by
  refine ⟨?_, ?_, by decide, by decide, by decide⟩
  · intro segment sym r snap seq i now
    rw [parseTradeFromSegment_eq]
  · intro msg sym r snap seq now h1 h2
    rw [extractTradesImproved_eq_of_nonzero h1 h2, List.length_map, List.length_range]

/-- Witness for C8: the one-record-per-boundary count applied to the
concrete one-entry message whose single entry has the unrecognized kind
`"X"`. -/
theorem c8_unrecognized_kind_pass_through_witness :
    c8Msg.noMdEntries ≠ [] ∧ c8Msg.noMdEntries ≠ ['0']
    ∧ (extractTradesImproved c8Msg "BTC-USD".toList "r1".toList true ['1'] 0).length
        = (findEntryBoundaries c8Msg.raw).length :=
  ⟨by decide, by decide,
    (c8_unrecognized_kind_pass_through).2.1 c8Msg "BTC-USD".toList "r1".toList true ['1'] 0
      (by decide) (by decide)⟩

/-- C9: removing subscriptions by instrument deletes exactly the
subscriptions whose instrument matches: no surviving entry matches the
instrument, every non-matching entry survives (membership and, at the
map level, its lookup under its request id), relative order is
preserved, and the trade buffer (and the other store fields) are
untouched. -/
theorem c9_remove_by_instrument (ts : TradeStore) (sym : List Char) :
    (∀ e ∈ (removeSubscription ts sym).subscriptions, e.2.Symbol ≠ sym)
    ∧ (∀ e ∈ ts.subscriptions, e.2.Symbol ≠ sym →
        e ∈ (removeSubscription ts sym).subscriptions)
    ∧ (removeSubscription ts sym).subscriptions.Sublist ts.subscriptions
    ∧ (∀ (k : List Char) (sub : Subscription),
        lookupSub ts.subscriptions k = some sub → sub.Symbol ≠ sym →
        lookupSub (removeSubscription ts sym).subscriptions k = some sub)
    ∧ (removeSubscription ts sym).trades = ts.trades
    ∧ (removeSubscription ts sym).updateCount = ts.updateCount
    ∧ (removeSubscription ts sym).maxSize = ts.maxSize := by
  refine ⟨?_, ?_, List.filter_sublist _, ?_, rfl, rfl, rfl⟩
  · intro e he
    have hp := (List.mem_filter.mp he).2
    simpa using hp
  · intro e he hsym
    exact List.mem_filter.mpr ⟨he, by simpa using hsym⟩
  · intro k sub h hsym
    exact lookupSub_filter_keep h hsym

/-- Witness for C9: removing BTC-USD from a two-instrument registry
leaves the ETH-USD subscription findable under its request id. -/
theorem c9_remove_by_instrument_witness :
    lookupSub c9Store.subscriptions "r2".toList = some c9EthSub
    ∧ c9EthSub.Symbol ≠ "BTC-USD".toList
    ∧ lookupSub (removeSubscription c9Store "BTC-USD".toList).subscriptions "r2".toList
        = some c9EthSub :=
  ⟨by decide, by decide,
    (c9_remove_by_instrument c9Store "BTC-USD".toList).2.2.2.1 "r2".toList c9EthSub
      (by decide) (by decide)⟩

/-- C10: `AddSubscription` with an already-registered request id
silently replaces the entry: afterwards the id maps to a fresh
subscription carrying the newly given symbol and type, Active true,
TotalUpdates 0 and SnapshotReceived false (the previous counters are
discarded); lookups under every other request id, the trade buffer and
the remaining store fields are unchanged. -/
theorem c10_add_subscription_replaces (ts : TradeStore) (sym subty r : List Char)
    (now : Nat) (old : Subscription) (h : lookupSub ts.subscriptions r = some old) :
    lookupSub (addSubscription ts sym subty r now).subscriptions r
      = some { Symbol := sym, SubscriptionType := subty, MdReqId := r, Active := true,
               LastUpdate := now, TotalUpdates := 0, SnapshotReceived := false }
    ∧ (∀ k, k ≠ r →
        lookupSub (addSubscription ts sym subty r now).subscriptions k
          = lookupSub ts.subscriptions k)
    ∧ (addSubscription ts sym subty r now).trades = ts.trades
    ∧ (addSubscription ts sym subty r now).updateCount = ts.updateCount
    ∧ (addSubscription ts sym subty r now).maxSize = ts.maxSize := by
  refine ⟨lookupSub_setSubEntry_self _ _ _, ?_, rfl, rfl, rfl⟩
  intro k hk
  exact lookupSub_setSubEntry_other hk _ _

/-- Witness for C10: re-registering rX (previously BTC-USD with counters
at their registration values) as an ETH-USD snapshot-only subscription
replaces the entry with the fresh state. -/
theorem c10_add_subscription_replaces_witness :
    lookupSub c10Store.subscriptions "rX".toList = some c10Prev
    ∧ lookupSub
        (addSubscription c10Store "ETH-USD".toList "0".toList "rX".toList 9).subscriptions
        "rX".toList
      = some { Symbol := "ETH-USD".toList, SubscriptionType := "0".toList,
               MdReqId := "rX".toList, Active := true, LastUpdate := 9,
               TotalUpdates := 0, SnapshotReceived := false } :=
  ⟨by decide,
    (c10_add_subscription_replaces c10Store "ETH-USD".toList "0".toList "rX".toList 9
      c10Prev (by decide)).1⟩

end PrimeFixMd
